import Mathlib

/-!
# Verification of the ptt-crawler extraction and crawl-orchestration layer

Shallow embedding of `src/parser.rs`, `src/article.rs` and `src/crawler.rs`.

Conventions of the embedding:
* An HTML `Document` is modelled as the record of the query results the parser
  actually performs on it (the `select` crate scans the node tree independently
  for each query, so the individual query results are the parser's only view of
  the document).
* Rust `Result<_, Error>` values are modelled by `PResult`; a Rust panic
  (a failed `unwrap()`) is modelled by the extra outcome `PResult.fault`,
  which propagates through every caller like an unwinding panic.
* Machine integers: page numbers and parsed numeric fields are `Nat`
  (no claim depends on `u32` wraparound); the `count() as i16` cast in
  `parse` is modelled exactly by `toI16` (truncation to 16 bits, two's
  complement), because claim C1 depends on it.
* Rust `str` scans are modelled over `List Char`; the regexes of the source
  are implemented as explicit backtracking matchers with the same
  leftmost-first, greedy-alternative semantics.  `\w` (Unicode word
  character) is approximated by `isWordChar`: ASCII alphanumerics, `_`, and
  every non-ASCII character; no claim depends on the distinction between
  non-ASCII word and non-word characters.
-/

/-- `parser::Error` (src/parser.rs lines 16-20). -/
inductive ParseError where
  | deletedArticle : ParseError
  | invalidFormat : ParseError
  | fieldNotFound : String → ParseError
deriving DecidableEq, Repr

/-- Outcome of a parsing step: a typed result, or `fault` for a Rust panic
(a failed `unwrap()`), which aborts everything above it. -/
inductive PResult (α : Type) where
  | ok : α → PResult α
  | err : ParseError → PResult α
  | fault : PResult α
deriving DecidableEq, Repr

/-- Sequencing of fallible steps: `?` on `Result`, with panics propagating. -/
def pbind {α β : Type} : PResult α → (α → PResult β) → PResult β
  | .ok a, f => f a
  | .err e, _ => .err e
  | .fault, _ => .fault

/-- Models `.ok()` on a `Result`: an error becomes an absent value, a panic
still propagates. -/
def softOpt {α : Type} : PResult α → PResult (Option α)
  | .ok a => .ok (some a)
  | .err _ => .ok none
  | .fault => .fault

/-- `\w` of the Rust regex crate, approximated: ASCII alphanumerics, `_`,
and all non-ASCII characters (the CJK characters appearing in categories are
Unicode word characters). -/
def isWordChar (c : Char) : Bool :=
  c.isAlphanum || c == '_' || 0x80 ≤ c.toNat

/-- Value of a digit character. -/
def digitVal (c : Char) : Nat := c.toNat - 48

/-- Numeric value of a digit string, as Rust's `str::parse::<u32>` on the
all-digit tokens produced by the matchers below. -/
def digitsToNat (l : List Char) : Nat := l.foldl (fun a c => a * 10 + digitVal c) 0

/-- Fuel-based worker of `listSplitOn` (the fuel, one more than the length
of the remaining input, makes the recursion structural so that every
definition below evaluates inside the kernel). -/
def splitOnAuxL (sep : List Char) : Nat → List Char → List Char → List (List Char)
  | 0, acc, l => [acc.reverse ++ l]
  | _ + 1, acc, [] => [acc.reverse]
  | fuel + 1, acc, c :: cs =>
    if sep.isPrefixOf (c :: cs) then
      acc.reverse :: splitOnAuxL sep fuel [] ((c :: cs).drop sep.length)
    else
      splitOnAuxL sep fuel (c :: acc) cs

/-- Split at every (leftmost, non-overlapping) occurrence of `sep`, like
Rust's `str::split` on a literal pattern: the head of the result is the text
before the first occurrence, and there is more than one piece iff the
pattern occurs. -/
def listSplitOn (sep l : List Char) : List (List Char) :=
  if sep.isEmpty then [l] else splitOnAuxL sep (l.length + 1) [] l

/-- Split at every character satisfying `p` (Rust `str::split` with a
char predicate); empty pieces are kept. -/
def splitPred (p : Char → Bool) : List Char → List (List Char)
  | [] => [[]]
  | c :: cs =>
    match splitPred p cs with
    | [] => [[]]
    | t :: ts => if p c then [] :: t :: ts else (c :: t) :: ts

/-- Whitespace trimmed from both ends (Rust `str::trim`). -/
def trimChars (l : List Char) : List Char :=
  ((l.dropWhile Char.isWhitespace).reverse.dropWhile Char.isWhitespace).reverse

/-- Rust `str::trim` (kernel-evaluable replacement for `String.trim`). -/
def strTrim (s : String) : String := String.mk (trimChars s.toList)

/-- Decimal digits of a natural number (fuel-based, 10 digits cover every
count arising here). -/
def natToChars : Nat → Nat → List Char
  | 0, _ => []
  | fuel + 1, n =>
    if n < 10 then [Char.ofNat (48 + n)]
    else natToChars fuel (n / 10) ++ [Char.ofNat (48 + n % 10)]

/-- Decimal rendering of a natural number. -/
def natStr (n : Nat) : String := String.mk (natToChars 10 n)

/-- Rust `str::contains(pat)` for the fixed non-empty patterns used by the
source (the split yields more than one piece iff the pattern occurs). -/
def strContainsSub (s pat : String) : Bool :=
  1 < (listSplitOn pat.toList s.toList).length

/-- The part of `s` after the first occurrence of `pat`, when `pat` occurs
(`none` otherwise).  Models `&s[s.find(pat).unwrap() + pat.len() ..]`. -/
def afterFirst (s pat : String) : Option String :=
  match listSplitOn pat.toList s.toList with
  | [] => none
  | [_] => none
  | _ :: rest => some (String.mk (List.intercalate pat.toList rest))

/-- The part of `s` from the first occurrence of `pat` on (the marker
included), when it occurs.  Models `&s[s.find(pat).unwrap() ..]`. -/
def fromFirst (s pat : String) : Option String :=
  (afterFirst s pat).map (fun r => pat ++ r)

/-- The part of `s` strictly before the first occurrence of `pat`, when it
occurs.  Models `&s[.. s.find(pat).unwrap()]`. -/
def beforeFirst (s pat : String) : Option String :=
  match listSplitOn pat.toList s.toList with
  | [] => none
  | [_] => none
  | p :: _ => some (String.mk p)

/-- Text of `s` up to (excluding) its first newline. -/
def firstLine (s : String) : String :=
  String.mk (s.toList.takeWhile (fun c => c != '\n'))

/-- `article::ReplyType` (src/article.rs lines 46-54): closed 3-glyph
vocabulary. -/
inductive ReplyType where
  | push : ReplyType
  | neutral : ReplyType
  | boo : ReplyType
deriving DecidableEq, Repr, BEq

/-- strum's `FromStr` for `ReplyType`: exact match on the serialized glyph. -/
def ReplyType.fromString : String → Option ReplyType
  | "推" => some .push
  | "→" => some .neutral
  | "噓" => some .boo
  | _ => none

/-- An IPv4 address (`std::net::Ipv4Addr`), as four octets. -/
structure Ipv4 where
  o1 : Nat
  o2 : Nat
  o3 : Nat
  o4 : Nat
deriving DecidableEq, Repr

/-- One octet of a dotted-quad string is valid for Rust's
`Ipv4Addr::from_str`: non-empty digits, value ≤ 255, and no leading zero. -/
def octetValid (l : List Char) : Bool :=
  !l.isEmpty && l.all Char.isDigit && digitsToNat l ≤ 255 &&
    (l.length == 1 || l.headD '0' != '0')

/-- Rust `Ipv4Addr::from_str` on a dotted string. -/
def ipv4Parse (s : String) : Option Ipv4 :=
  match listSplitOn ['.'] s.toList with
  | [a, b, c, d] =>
    if octetValid a && octetValid b && octetValid c && octetValid d then
      some ⟨digitsToNat a, digitsToNat b, digitsToNat c, digitsToNat d⟩
    else none
  | _ => none

/-- `Ipv4Addr::to_string`: canonical dotted quad. -/
def ipString (ip : Ipv4) : String :=
  natStr ip.o1 ++ "." ++ natStr ip.o2 ++ "." ++ natStr ip.o3 ++ "." ++ natStr ip.o4

/-- A timezone-qualified date-time under the fixed UTC+8 offset
(`DateTime<FixedOffset>` with `TW_TIME_OFFSET`); the offset is a constant of
the program so only the local components are carried. -/
structure DateTimeTW where
  year : Int
  month : Nat
  day : Nat
  hour : Nat
  minute : Nat
  second : Nat
deriving DecidableEq, Repr

/-- `is_leap_year` (src/parser.rs lines 436-438).  Rust `%` is the truncated
remainder, but each use compares against 0, where truncated and Euclidean
remainder agree, so `Int.emod` is faithful. -/
def is_leap_year (year : Int) : Bool :=
  year % 4 == 0 && (year % 100 != 0 || year % 400 == 0)

/-- The `while !is_leap_year(year) { year += 1 }` loop of `parse_reply`
(src/parser.rs lines 413-415), with explicit fuel.  Fuel 8 is enough for
every starting year (`leapSearch_fuel8_spec` below), so `leapSearch 8`
coincides with the unbounded loop of the source. -/
def leapSearch : Nat → Int → Int
  | 0, y => y
  | fuel + 1, y => if is_leap_year y then y else leapSearch fuel (y + 1)

/-- The year `parse_reply` uses to build a reply's timestamp
(src/parser.rs lines 410-416): the article's year, advanced to the next
leap year when the reply is stamped February 29. -/
def replyYear (articleYear : Int) (month day : Nat) : Int :=
  if month = 2 ∧ day = 29 then leapSearch 8 articleYear else articleYear

/-- Number of days of a month (chrono's calendar). -/
def daysInMonth (year : Int) (month : Nat) : Nat :=
  if month = 2 then (if is_leap_year year then 29 else 28)
  else if month = 4 ∨ month = 6 ∨ month = 9 ∨ month = 11 then 30
  else 31

/-- chrono year range: `NaiveDate` supports `i32::MIN >> 13` to
`i32::MAX >> 13`; `ymd_opt` fails outside it. -/
def chronoYearOk (year : Int) : Bool := -262144 ≤ year && year ≤ 262143

/-- Validity of `TW_TIME_OFFSET.ymd_opt(y, m, d).and_hms_opt(h, min, s)`:
for a fixed offset the `LocalResult` is `Single` exactly when the calendar
date and the time of day are valid. -/
def validYmdHms (year : Int) (month day hour minute second : Nat) : Bool :=
  chronoYearOk year && 1 ≤ month && month ≤ 12 && 1 ≤ day &&
    day ≤ daysInMonth year month && hour ≤ 23 && minute ≤ 59 && second ≤ 59

/-- The reply-timestamp construction of `parse_reply`
(src/parser.rs lines 410-425): year inference from the article timestamp,
then `ymd_opt`/`and_hms_opt`, with `None` on any invalid component. -/
def make_reply_date (articleTime : Option DateTimeTW)
    (month day hour minute : Nat) : Option DateTimeTW :=
  articleTime.bind fun t =>
    let year := replyYear t.year month day
    if validYmdHms year month day hour minute 0 then
      some ⟨year, month, day, hour, minute, 0⟩
    else none

/-- Rust's `usize as i16` cast: truncation to 16 bits, two's complement. -/
def toI16 (n : Nat) : Int :=
  if n % 65536 < 32768 then ((n % 65536 : Nat) : Int)
  else ((n % 65536 : Nat) : Int) - 65536

/-! ## Document model

A `Document` records the results of the queries the parser performs via the
`select` crate.  Spans carry their classes, text, and next-sibling text;
push (reply) nodes carry the texts of their sub-spans. -/

/-- A `<span>` element: its classes, its text, and the text of its next
sibling node (`None` when it has no next sibling, where `.next().unwrap()`
panics). -/
structure SpanNode where
  classes : List String
  text : String
  nextText : Option String
deriving DecidableEq, Repr

/-- A `div.push` reply node: its whole text and the texts of its first
`push-tag` / `push-userid` / `push-content` / `push-ipdatetime` spans
(`None` when the span is absent, where `.next().unwrap()` panics). -/
structure PushNode where
  text : String
  pushTag : Option String
  pushUserid : Option String
  pushContent : Option String
  pushIpdatetime : Option String
deriving DecidableEq, Repr

/-- The parser's view of an HTML document. -/
structure Document where
  /-- texts of the nodes of class `bbs-content` -/
  bbsContentTexts : List String
  /-- `href` of the first `<link rel="canonical">` (`None` if absent) -/
  canonicalHref : Option String
  /-- first `<meta property="og:title">`: `none` if the element is absent,
      `some none` if it exists without a `content` attribute -/
  ogTitleMeta : Option (Option String)
  /-- all `<span>` elements, in document order -/
  spans : List SpanNode
  /-- text of `div#main-content` (`None` if absent, where
      `get_main_content` panics) -/
  mainContent : Option String
  /-- the `div.push` reply nodes, in document order -/
  pushNodes : List PushNode
deriving DecidableEq, Repr

/-- The `span.article-meta-value` elements, in order. -/
def metaValueSpans (d : Document) : List SpanNode :=
  d.spans.filter (fun n => n.classes.contains "article-meta-value")

/-- `is_article_exist` (src/parser.rs lines 54-58). -/
def is_article_exist (d : Document) : Bool :=
  !(d.bbsContentTexts.any (fun t => strContainsSub t "404 - Not Found."))

/-- `parse_id` (src/parser.rs lines 84-96): take the last `/`-segment of the
canonical href and cut it at the **first** occurrence of `".html"`.
Both `unwrap()`s (absent canonical link; no `".html"` in the segment) are
panics. -/
def parse_id (d : Document) : PResult String :=
  match d.canonicalHref with
  | none => .fault
  | some url =>
    let seg := String.mk ((listSplitOn ['/'] url.toList).getLastD [])
    match beforeFirst seg ".html" with
    | none => .fault
    | some idStr => .ok idStr

/-- The category/title regex of `parse_title`
(`((\[|［)(?P<category>\w+)+(\]|［...)\s*)?(?P<title>.+)`) applied to the
trimmed raw title.  The input being trimmed, the leftmost match starts at
position 0; the optional bracket group is tried first (greedy `?`), and
`.+` runs to the first newline. -/
def splitCategory (s : String) : Option String × String :=
  let t := strTrim s
  match t.toList with
  | [] => (none, t)
  | c :: rest =>
    let fallback : Option String × String :=
      (none, String.mk ((c :: rest).takeWhile (fun k => k != '\n')))
    if c == '[' || c == '［' then
      let w := rest.takeWhile isWordChar
      match rest.dropWhile isWordChar with
      | [] => fallback
      | b :: r3 =>
        if !w.isEmpty && (b == ']' || b == '］') then
          let r4 := r3.dropWhile Char.isWhitespace
          if r4.isEmpty then fallback
          else (some (String.mk w), String.mk (r4.takeWhile (fun k => k != '\n')))
        else fallback
    else fallback

/-- `parse_title` (src/parser.rs lines 98-145): ordered fallback chain
og:title meta → labelled 標題 span's next sibling → raw `標題:` marker scan,
then the category split. -/
def parse_title (d : Document) : PResult (Option String × String) :=
  match d.ogTitleMeta with
  | some attrContent =>
    match attrContent with
    | none => .fault
    | some s => .ok (splitCategory s)
  | none =>
    match d.spans.find? (fun n => strTrim n.text == "標題") with
    | some n =>
      match n.nextText with
      | none => .fault
      | some s => .ok (splitCategory s)
    | none =>
      match d.mainContent with
      | none => .fault
      | some mc =>
        match afterFirst mc "標題:" with
        | some rest =>
          if rest.toList.contains '\n' then .ok (splitCategory (firstLine rest))
          else .fault
        | none => .err (.fieldNotFound "title")

/-- The `.+` of the author regex, closed by the **last** `)` on the line:
`none` when the line after `(` has no `)` preceded by at least one
character. -/
def lastParenSplit (l : List Char) : Option (List Char) :=
  let line := l.takeWhile (fun c => c != '\n')
  match line.reverse.dropWhile (fun c => c != ')') with
  | [] => none
  | _ :: restRev => if restRev.isEmpty then none else some restRev.reverse

/-- One attempt of the author regex `(?P<id>\w+)\s\((?P<name>.+)\)` at the
current position: a non-empty word run, one whitespace, `(`, and a
parenthesized non-empty remainder on the same line. -/
def attemptAuthor (l : List Char) : Option (List Char × List Char) :=
  let w := l.takeWhile isWordChar
  if w.isEmpty then none
  else
    match l.dropWhile isWordChar with
    | d :: e :: rest =>
      if d.isWhitespace && e == '(' then
        (lastParenSplit rest).map (fun name => (w, name))
      else none
    | _ => none

/-- Leftmost-first scan of the author regex.  (If the regex fails at the
start of a word run it also fails at every position inside the run — the
suffix after the run is the same — so a char-by-char scan is faithful.) -/
def authorScan : List Char → Option (List Char × List Char)
  | [] => none
  | c :: cs =>
    match attemptAuthor (c :: cs) with
    | some r => some r
    | none => authorScan cs

/-- The `id (name)` split of `parse_author`: on a regex match the id and
name captures, otherwise the whole trimmed string with no name. -/
def splitAuthor (s : String) : String × Option String :=
  let t := strTrim s
  match authorScan t.toList with
  | some (idc, namec) => (String.mk idc, some (String.mk namec))
  | none => (t, none)

/-- `parse_author` (src/parser.rs lines 147-187): meta-value span → labelled
作者 span's next sibling → raw `作者:` marker scan, then the id/name split. -/
def parse_author (d : Document) : PResult (String × Option String) :=
  match (metaValueSpans d).head? with
  | some n => .ok (splitAuthor n.text)
  | none =>
    match d.spans.find? (fun n => strTrim n.text == "作者") with
    | some n =>
      match n.nextText with
      | none => .fault
      | some t => .ok (splitAuthor t)
    | none =>
      match d.mainContent with
      | none => .fault
      | some mc =>
        match afterFirst mc "作者:" with
        | some rest =>
          if rest.toList.contains '\n' then .ok (splitAuthor (firstLine rest))
          else .fault
        | none => .err (.fieldNotFound "author")

/-- `article::BoardName`: the closed board enumeration with an `Unknown`
fallback, modelled by its canonical (strum-serialized) string. -/
inductive BoardName where
  | known : String → BoardName
  | unknown : BoardName
deriving DecidableEq, Repr

/-- The canonical strings of the known boards (src/article.rs lines 59-226;
the `biker` entry's strum attribute is malformed in the source, its intended
serialization is included here). -/
def knownBoards : List String :=
  ["AllTogether", "Bank_Service", "Baseball", "basketballTW", "Beauty",
   "BeautySalon", "biker", "Boy-Girl", "Brand", "BuyTogether", "C_Chat",
   "car", "CarShop", "cat", "China-Drama", "cookclub", "creditcard",
   "DC_SALE", "DMM_GAMES", "Drama-Ticket", "DSLR", "E-appliance",
   "e-shopping", "Examination", "fastfood", "FATE_GO", "Finance", "Food",
   "forsale", "Gamesale", "gay", "GBF", "GetMarry", "give", "Gossiping",
   "HardwareSale", "HatePolitics", "HBL", "Headphone", "Hearthstone",
   "HelpBuy", "home-sale", "hypermall", "Insurance", "iOS", "IU",
   "Japan_Travel", "japanavgirls", "Japandrama", "joke", "Kaohsiung",
   "Key_Mou_Pad", "KoreaDrama", "KoreaStar", "KoreanPop", "Lakers",
   "lesbian", "Lifeismoney", "LoL", "MacShop", "MakeUp", "marriage",
   "marvel", "MayDay", "medstudent", "Military", "MLB", "MobileComm",
   "Mobile-game", "MobilePay", "mobilesales", "movie", "MuscleBeach",
   "nb-shopping", "NBA", "NBA_Film", "Nogizaka46", "NSwitch", "ONE_PIECE",
   "Palmar_Drama", "part-time", "PathofExile", "PC_Shopping", "PlayStation",
   "PokeMon", "PokemonGO", "PuzzleDragon", "Salary", "sex", "Soft_Job",
   "SportLottery", "Steam", "Stock", "StupidClown", "TaichungBun", "Tainan",
   "TaiwanDrama", "Tech_Job", "ToS", "TW_Entertain", "TWICE", "TypeMoon",
   "Wanted", "watch", "WomenTalk", "WOW", "Zastrology", "EAseries",
   "Unknown"]

/-- `s.parse::<BoardName>().unwrap_or(BoardName::Unknown)`: board-name
drift maps to `Unknown` instead of failing. -/
def BoardName.fromString (s : String) : BoardName :=
  if knownBoards.contains s then .known s else .unknown

/-- `parse_board` (src/parser.rs lines 189-208): second meta-value span →
labelled 看板 span's next sibling; unknown text yields `Unknown`. -/
def parse_board (d : Document) : PResult BoardName :=
  match (metaValueSpans d)[1]? with
  | some n => .ok (BoardName.fromString n.text)
  | none =>
    match d.spans.find? (fun n => strTrim n.text == "看板") with
    | none => .err (.fieldNotFound "board")
    | some n =>
      match n.nextText with
      | none => .fault
      | some t => .ok (BoardName.fromString t)

/-! ## Article timestamp extraction -/

/-- Lowercase weekday names accepted by chrono's `%a`. -/
def weekdayNames : List (String × String) :=
  [("sun", "sunday"), ("mon", "monday"), ("tue", "tuesday"),
   ("wed", "wednesday"), ("thu", "thursday"), ("fri", "friday"),
   ("sat", "saturday")]

/-- Index (0 = Sunday) of a weekday token, case-insensitively. -/
def weekdayIndex (tok : List Char) : Option Nat :=
  let t := tok.map Char.toLower
  (List.range 7).find? (fun i =>
    match weekdayNames[i]? with
    | some p => t == p.1.toList || t == p.2.toList
    | none => false)

/-- Lowercase month names accepted by chrono's `%b`. -/
def monthNames : List (String × String) :=
  [("jan", "january"), ("feb", "february"), ("mar", "march"),
   ("apr", "april"), ("may", "may"), ("jun", "june"), ("jul", "july"),
   ("aug", "august"), ("sep", "september"), ("oct", "october"),
   ("nov", "november"), ("dec", "december")]

/-- 1-based month number of a month-name token, case-insensitively. -/
def monthIndex (tok : List Char) : Option Nat :=
  let t := tok.map Char.toLower
  ((List.range 12).find? (fun i =>
    match monthNames[i]? with
    | some p => t == p.1.toList || t == p.2.toList
    | none => false)).map (fun i => i + 1)

/-- Day of week (0 = Sunday) of a proleptic Gregorian date, Sakamoto's
method (floor division; `/` and `%` on `Int` are Euclidean, which agrees
with floor for positive divisors). -/
def weekdayOf (year : Int) (month day : Nat) : Nat :=
  let t : List Nat := [0, 3, 2, 5, 0, 3, 5, 1, 4, 6, 2, 4]
  let y := if month < 3 then year - 1 else year
  ((y + y / 4 - y / 100 + y / 400 + (t.getD (month - 1) 0) + day) % 7).toNat

/-- `parse_date_from_str` (src/parser.rs lines 237-257) for the fixed format
`"%a %b  %e %H:%M:%S %Y"`: whitespace-separated weekday name, month name,
day, `H:M:S`, 4-digit year; chrono validates the calendar date, the time of
day, and the consistency of the parsed weekday name.  Any failure is
`InvalidFormat` (for the fixed UTC+8 offset `from_local_datetime` is always
`Single` on a valid local datetime). -/
def parse_date_from_str (s : String) : PResult DateTimeTW :=
  let toks := (splitPred Char.isWhitespace s.toList).filter (fun t => !t.isEmpty)
  match toks with
  | [dow, mon, dayL, hms, yearL] =>
    match weekdayIndex dow, monthIndex mon with
    | some wd, some m =>
      match listSplitOn [':'] hms with
      | [hL, mL, sL] =>
        if dayL.all Char.isDigit && !dayL.isEmpty && dayL.length ≤ 2 &&
            yearL.all Char.isDigit && yearL.length == 4 &&
            hL.all Char.isDigit && !hL.isEmpty && hL.length ≤ 2 &&
            mL.all Char.isDigit && !mL.isEmpty && mL.length ≤ 2 &&
            sL.all Char.isDigit && !sL.isEmpty && sL.length ≤ 2 then
          let d := digitsToNat dayL
          let y : Int := (digitsToNat yearL : Int)
          let h := digitsToNat hL
          let mi := digitsToNat mL
          let sec := digitsToNat sL
          if validYmdHms y m d h mi sec && weekdayOf y m d == wd then
            .ok ⟨y, m, d, h, mi, sec⟩
          else .err .invalidFormat
        else .err .invalidFormat
      | _ => .err .invalidFormat
    | _, _ => .err .invalidFormat
  | _ => .err .invalidFormat

/-- One position of the article-date regex
`(?P<date>\w{3} \w{3} \d{2} \d{2}:\d{2}:\d{2} \d{4})`: a fixed 24-character
shape. -/
def dateShapeAt (l : List Char) : Option String :=
  let c := l.take 24
  if c.length == 24 &&
      (c.take 3).all isWordChar && c.getD 3 ' ' == ' ' &&
      ((c.drop 4).take 3).all isWordChar && c.getD 7 ' ' == ' ' &&
      ((c.drop 8).take 2).all Char.isDigit && c.getD 10 ' ' == ' ' &&
      ((c.drop 11).take 2).all Char.isDigit && c.getD 13 ' ' == ':' &&
      ((c.drop 14).take 2).all Char.isDigit && c.getD 16 ' ' == ':' &&
      ((c.drop 17).take 2).all Char.isDigit && c.getD 19 ' ' == ' ' &&
      ((c.drop 20).take 4).all Char.isDigit then
    some (String.mk c)
  else none

/-- Leftmost match of the article-date regex. -/
def scanDate : List Char → Option String
  | [] => none
  | c :: cs =>
    match dateShapeAt (c :: cs) with
    | some r => some r
    | none => scanDate cs

/-- `parse_date` (src/parser.rs lines 210-235): fourth meta-value span, or
the date-regex scan of the main content. -/
def parse_date (d : Document) : PResult DateTimeTW :=
  match (metaValueSpans d)[3]? with
  | some n => parse_date_from_str n.text
  | none =>
    match d.mainContent with
    | none => .fault
    | some mc =>
      match scanDate mc.toList with
      | some ds => parse_date_from_str ds
      | none => .err (.fieldNotFound "date")

/-! ## Origin address extraction -/

/-- The `\d{1,3}` alternatives of the IPv4 regex at one position, in greedy
order (3, then 2, then 1 digits). -/
def octetAlts (l : List Char) : List (List Char × List Char) :=
  [3, 2, 1].filterMap (fun n =>
    let t := l.take n
    if t.length == n && t.all Char.isDigit then some (t, l.drop n) else none)

/-- Consume a literal `.`. -/
def dotThen : List Char → Option (List Char)
  | c :: rest => if c == '.' then some rest else none
  | [] => none

/-- All matches of `\d{1,3}\.\d{1,3}\.\d{1,3}\.\d{1,3}` at one position,
as (matched text, rest), in the regex's backtracking order. -/
def ipAlts (l : List Char) : List (String × List Char) :=
  (octetAlts l).flatMap (fun p1 =>
    match dotThen p1.2 with
    | none => []
    | some r1 =>
      (octetAlts r1).flatMap (fun p2 =>
        match dotThen p2.2 with
        | none => []
        | some r2 =>
          (octetAlts r2).flatMap (fun p3 =>
            match dotThen p3.2 with
            | none => []
            | some r3 =>
              (octetAlts r3).map (fun p4 =>
                (String.mk (p1.1 ++ '.' :: (p2.1 ++ '.' :: (p3.1 ++ '.' :: p4.1))),
                 p4.2)))))

/-- Leftmost (greedy-first) match of the standalone IPv4 regex of
`parse_ip`. -/
def firstIpv4Token : List Char → Option String
  | [] => none
  | c :: cs =>
    match (ipAlts (c :: cs)).head? with
    | some p => some p.1
    | none => firstIpv4Token cs

/-- `parse_ip` (src/parser.rs lines 259-291): a qualifying `span.f2` text,
else the main-content substring from the `來自:`/`From:` marker (the whole
content when neither occurs — `unwrap_or_default` yields index 0); then the
first IPv4-shaped token, parsed by `Ipv4Addr::from_str`
(`FieldNotFound("ip")` on malformed text or no token). -/
def parse_ip (d : Document) : PResult Ipv4 :=
  let f2Texts := (d.spans.filter (fun n => n.classes.contains "f2")).map SpanNode.text
  let strContain : PResult String :=
    match f2Texts.find? (fun s =>
        !strContainsSub s "編輯" &&
          (strContainsSub s "來自:" || strContainsSub s "From:")) with
    | some s => .ok s
    | none =>
      match d.mainContent with
      | none => .fault
      | some mc => .ok ((fromFirst mc "來自:").getD ((fromFirst mc "From:").getD mc))
  pbind strContain fun s =>
    match firstIpv4Token s.toList with
    | none => .err (.fieldNotFound "ip")
    | some tok =>
      match ipv4Parse tok with
      | some ip => .ok ip
      | none => .err (.fieldNotFound "ip")

/-! ## Body extraction -/

/-- `parse_content` (src/parser.rs lines 301-319): drop everything before
the first newline, cut at the first `\n※` after it, trim.  Absence of either
marker is a hard `InvalidFormat`. -/
def parse_content (d : Document) : PResult String :=
  match d.mainContent with
  | none => .fault
  | some mc =>
    match afterFirst mc "\n" with
    | none => .err .invalidFormat
    | some rest =>
      match beforeFirst rest "\n※" with
      | none => .err .invalidFormat
      | some body => .ok (strTrim body)

/-! ## Reply extraction -/

/-- The numeric captures of the reply origin+time regex: month, day, and an
optional hour:minute defaulting to 00:00. -/
structure MDTime where
  month : Nat
  day : Nat
  hour : Nat
  minute : Nat
deriving DecidableEq, Repr

/-- The alternatives of `\s?` at one position, greedy first: consume one
whitespace character if there is one, else stay. -/
def wsOneAlts : List Char → List (List Char)
  | [] => [[]]
  | c :: rest => if c.isWhitespace then [rest, c :: rest] else [c :: rest]

/-- The mandatory `(?P<month>\d{2})/(?P<day>\d{2})` followed by the optional
`(\s*(?P<hour>\d{2}):(?P<min>\d{2}))?` at one position.  `\s*` is greedy and
cannot give back usefully (a shorter run would leave a whitespace character
where a digit is required), so the time group matches exactly when
`\d{2}:\d{2}` follows the maximal whitespace run. -/
def mdTimeAt (l : List Char) : Option MDTime :=
  match l with
  | m1 :: m2 :: sl :: d1 :: d2 :: rest =>
    if m1.isDigit && m2.isDigit && sl == '/' && d1.isDigit && d2.isDigit then
      let month := digitVal m1 * 10 + digitVal m2
      let day := digitVal d1 * 10 + digitVal d2
      match rest.dropWhile Char.isWhitespace with
      | h1 :: h2 :: co :: n1 :: n2 :: _ =>
        if h1.isDigit && h2.isDigit && co == ':' && n1.isDigit && n2.isDigit then
          some ⟨month, day, digitVal h1 * 10 + digitVal h2,
                digitVal n1 * 10 + digitVal n2⟩
        else some ⟨month, day, 0, 0⟩
      | _ => some ⟨month, day, 0, 0⟩
    else none
  | _ => none

/-- The whole reply regex
`(?P<ip>\d{1,3}\.\d{1,3}\.\d{1,3}\.\d{1,3})?\s?(?P<month>\d{2})/(?P<day>\d{2})(\s*(?P<hour>\d{2}):(?P<min>\d{2}))?`
at one position: the optional IPv4 group is tried first (greedy `?`, octet
alternatives in backtracking order), then the ip-absent alternative. -/
def replyMatchAt (l : List Char) : Option (Option String × MDTime) :=
  match (ipAlts l).findSome? (fun p =>
      (wsOneAlts p.2).findSome? (fun r =>
        (mdTimeAt r).map (fun md => (some p.1, md)))) with
  | some r => some r
  | none =>
    (wsOneAlts l).findSome? (fun r =>
      (mdTimeAt r).map (fun md => ((none : Option String), md)))

/-- Leftmost match of the reply regex. -/
def replyMatch : List Char → Option (Option String × MDTime)
  | [] => none
  | c :: cs =>
    match replyMatchAt (c :: cs) with
    | some r => some r
    | none => replyMatch cs

/-- `article::Reply` (src/article.rs lines 36-43). -/
structure Reply where
  reply_type : ReplyType
  author_id : String
  ip : Option Ipv4
  date : Option DateTimeTW
  content : String
deriving DecidableEq, Repr

/-- `.trim_start_matches(|c| (c == ':' || c == ' '))` of the reply
content. -/
def dropColonSpace (s : String) : String :=
  String.mk (s.toList.dropWhile (fun c => c == ':' || c == ' '))

/-- `cap.name("ip").map(|m| m.as_str().parse::<Ipv4Addr>().unwrap())`:
an absent capture is `None`; a captured token that is not a valid address
panics. -/
def capIp : Option String → PResult (Option Ipv4)
  | none => .ok none
  | some s =>
    match ipv4Parse s with
    | some ip => .ok (some ip)
    | none => .fault

/-- The too-large warning text rejected at the top of `parse_reply`. -/
def bigFileMsg : String := "檔案過大！部分文章無法顯示"

/-- `parse_reply` (src/parser.rs lines 328-434).  Unrecognized type glyphs,
absent sub-spans, and invalid captured IPv4 tokens all panic (`unwrap()`);
the warning text and a regex mismatch in both locations are `InvalidFormat`;
and an unbuildable timestamp leaves `date` absent. -/
def parse_reply (node : PushNode) (articleTime : Option DateTimeTW) : PResult Reply :=
  if node.text == bigFileMsg then .err .invalidFormat
  else
    match node.pushTag with
    | none => .fault
    | some tagText =>
      match ReplyType.fromString (strTrim tagText) with
      | none => .fault
      | some rType =>
        match node.pushUserid with
        | none => .fault
        | some authorId =>
          match node.pushContent with
          | none => .fault
          | some rawContent =>
            let content0 := strTrim (dropColonSpace rawContent)
            match node.pushIpdatetime with
            | none => .fault
            | some ipdt =>
              match replyMatch (trimChars ipdt.toList) with
              | some (ipTok, md) =>
                pbind (capIp ipTok) fun ip =>
                  .ok ⟨rType, authorId, ip,
                       make_reply_date articleTime md.month md.day md.hour md.minute,
                       content0⟩
              | none =>
                match replyMatch content0.toList with
                | some (ipTok, md) =>
                  pbind (capIp ipTok) fun ip =>
                    match ip with
                    | some ipv =>
                      match beforeFirst content0 (ipString ipv) with
                      | none => .fault
                      | some pre =>
                        .ok ⟨rType, authorId, some ipv,
                             make_reply_date articleTime md.month md.day md.hour md.minute,
                             strTrim pre⟩
                    | none =>
                      .ok ⟨rType, authorId, none,
                           make_reply_date articleTime md.month md.day md.hour md.minute,
                           content0⟩
                | none => .err .invalidFormat

/-- `parse_replies` (src/parser.rs lines 321-326): `flat_map` over the
`div.push` nodes — an `Err` reply is dropped, a panic aborts the whole
collection. -/
def parse_replies (nodes : List PushNode) (articleTime : Option DateTimeTW) :
    PResult (List Reply) :=
  match nodes with
  | [] => .ok []
  | n :: ns =>
    match parse_reply n articleTime with
    | .fault => .fault
    | .err _ => parse_replies ns articleTime
    | .ok r =>
      match parse_replies ns articleTime with
      | .ok rs => .ok (r :: rs)
      | .err e => .err e
      | .fault => .fault

/-! ## Article assembly -/

/-- `article::Meta` (src/article.rs lines 6-16). -/
structure Meta where
  board : BoardName
  id : String
  category : String
  title : String
  author_id : String
  author_name : Option String
  date : Option DateTimeTW
  ip : Option Ipv4
deriving DecidableEq, Repr

/-- `article::ReplyCount` (src/article.rs lines 28-33).  The source declares
the fields as `u16`, but `parse` assigns them values cast with `as i16`
(src/parser.rs lines 32-45); the fields here carry the i16 value that the
cast produces, making that mismatch observable (claim C1). -/
structure ReplyCount where
  push : Int
  neutral : Int
  boo : Int
deriving DecidableEq, Repr

/-- `article::Article` (src/article.rs lines 18-25). -/
structure Article where
  meta : Meta
  content : String
  reply_count : ReplyCount
  replies : List Reply
deriving DecidableEq, Repr

/-- `parse_meta` (src/parser.rs lines 60-82), in the source's evaluation
order: id, title/category, author, board, then the soft date and ip. -/
def parse_meta (d : Document) : PResult Meta :=
  pbind (parse_id d) fun id =>
  pbind (parse_title d) fun ct =>
  pbind (parse_author d) fun an =>
  pbind (parse_board d) fun board =>
  pbind (softOpt (parse_date d)) fun date =>
  pbind (softOpt (parse_ip d)) fun ip =>
  .ok ⟨board, id, (ct.1).getD "", ct.2, an.1, an.2, date, ip⟩

/-- Number of replies of one type:
`replies.iter().filter(|r| r.reply_type == t).count()`. -/
def replyTally (replies : List Reply) (t : ReplyType) : Nat :=
  (replies.filter (fun r => r.reply_type == t)).length

/-- `parse` (src/parser.rs lines 22-52): deleted-article check first, then
meta, content, replies, and the reply tally cast with `as i16`. -/
def parse (d : Document) : PResult Article :=
  if !is_article_exist d then .err .deletedArticle
  else
    pbind (parse_meta d) fun meta =>
    pbind (parse_content d) fun content =>
    pbind (parse_replies d.pushNodes meta.date) fun replies =>
    .ok ⟨meta, content,
         ⟨toI16 (replyTally replies .push), toI16 (replyTally replies .neutral),
          toI16 (replyTally replies .boo)⟩,
         replies⟩

/-! ## Crawl orchestration (src/crawler.rs)

The network is abstracted: `fetchPage p` stands for the result of
`crawl_one_page_urls(client, compose_page_url(board, p))` and
`fetchArticle url` for the result of `crawl_url(client, url)` — both are
`await` points whose outcome depends only on their argument within one
orchestration call. -/

/-- `crawler::Error` (src/crawler.rs lines 16-20); the `reqwest::Error`
payload of `ConnectionError` is abstracted to a numeric code so that
distinct transport failures stay distinguishable. -/
inductive CrawlError where
  | connectionError : Nat → CrawlError
  | invalidUrl : CrawlError
  | invalidResponse : CrawlError
deriving DecidableEq, Repr

/-- The pages visited by `for page_num in range.clone()` on the inclusive
range `lo..=hi`: ascending, empty when `lo > hi`. -/
def pageList (lo hi : Nat) : List Nat := List.range' lo (hi + 1 - lo)

/-- `crawl_page_urls` (src/crawler.rs lines 92-127): iterate the range,
append the URLs of each page that succeeds, remember the last error
(initialized to `InvalidResponse`), and fail only when no URL at all was
recovered. -/
def crawl_page_urls (fetchPage : Nat → Except CrawlError (List String))
    (lo hi : Nat) : Except CrawlError (List String) :=
  let r := (pageList lo hi).foldl
    (fun acc p =>
      match fetchPage p with
      | .ok urls => (acc.1 ++ urls, acc.2)
      | .error e => (acc.1, e))
    ([], CrawlError.invalidResponse)
  if r.1.isEmpty then .error r.2 else .ok r.1

/-- `crawl_page_articles` (src/crawler.rs lines 130-165): get the URLs of
the whole range (propagating its failure), crawl each URL, keep the
articles that succeed and the last error, and fail only when no article at
all was recovered. -/
def crawl_page_articles (fetchPage : Nat → Except CrawlError (List String))
    (fetchArticle : String → Except CrawlError Article)
    (lo hi : Nat) : Except CrawlError (List Article) :=
  match crawl_page_urls fetchPage lo hi with
  | .error e => .error e
  | .ok urls =>
    let r := urls.foldl
      (fun acc url =>
        match fetchArticle url with
        | .ok a => (acc.1 ++ [a], acc.2)
        | .error e => (acc.1, e))
      ([], CrawlError.invalidResponse)
    if r.1.isEmpty then .error r.2 else .ok r.1

/-- The successes of a list of fetch results, in order. -/
def oksOf {α : Type} (l : List (Except CrawlError α)) : List α :=
  l.filterMap (fun r => match r with | .ok a => some a | .error _ => none)

/-- The failures of a list of fetch results, in order. -/
def errsOf {α : Type} (l : List (Except CrawlError α)) : List CrawlError :=
  l.filterMap (fun r => match r with | .ok _ => none | .error e => some e)

/-- The last failure of a list of fetch results, `InvalidResponse` (the
initial value of the accumulator in the source) when none occurred. -/
def lastErrD {α : Type} (l : List (Except CrawlError α)) : CrawlError :=
  (errsOf l).getLastD .invalidResponse

/-! ## Helper lemmas -/

@[simp]
theorem pbind_ok {α β : Type} (a : α) (f : α → PResult β) : pbind (.ok a) f = f a := rfl

@[simp]
theorem pbind_err {α β : Type} (e : ParseError) (f : α → PResult β) :
    pbind (.err e) f = .err e := rfl

@[simp]
theorem pbind_fault {α β : Type} (f : α → PResult β) :
    pbind (PResult.fault : PResult α) f = .fault := rfl

theorem is_leap_year_iff (y : Int) :
    is_leap_year y = true ↔ (y % 4 = 0 ∧ (y % 100 ≠ 0 ∨ y % 400 = 0)) := by
  simp [is_leap_year, Bool.and_eq_true, Bool.or_eq_true, beq_iff_eq, bne_iff_ne]

/-- Within any 8 consecutive years there is a leap year: among the two
multiples of 4 in the window at most one is a non-leap century. -/
theorem leap_exists_within7 (y : Int) :
    ∃ k : Nat, k ≤ 7 ∧ is_leap_year (y + k) = true := by
  obtain ⟨k1, hk10, hk14, hk1m⟩ : ∃ k1 : Int, 0 ≤ k1 ∧ k1 < 4 ∧ (y + k1) % 4 = 0 :=
    ⟨(4 - y % 4) % 4, by omega, by omega, by omega⟩
  by_cases hc : (y + k1) % 100 = 0 ∧ (y + k1) % 400 ≠ 0
  · refine ⟨(k1 + 4).toNat, by omega, ?_⟩
    rw [is_leap_year_iff]
    have hcast : (((k1 + 4).toNat : Nat) : Int) = k1 + 4 := by omega
    rw [hcast]
    omega
  · refine ⟨k1.toNat, by omega, ?_⟩
    rw [is_leap_year_iff]
    have hcast : ((k1.toNat : Nat) : Int) = k1 := by omega
    rw [hcast]
    omega

/-- `leapSearch` returns the least leap year at or after `y`, provided some
leap year lies within its fuel. -/
theorem leapSearch_spec (fuel : Nat) (y : Int)
    (h : ∃ k : Nat, k < fuel ∧ is_leap_year (y + k) = true) :
    ∃ j : Nat, leapSearch fuel y = y + j ∧ is_leap_year (y + j) = true ∧
      (∀ i : Nat, i < j → is_leap_year (y + i) = false) ∧
      (∀ k : Nat, k < fuel → is_leap_year (y + k) = true → j ≤ k) := by
  induction fuel generalizing y with
  | zero => obtain ⟨k, hk, _⟩ := h; omega
  | succ fuel ih =>
    cases hy : is_leap_year y with
    | true =>
      refine ⟨0, by simp [leapSearch, hy], by simpa using hy, by omega, ?_⟩
      intro k _ _; omega
    | false =>
      obtain ⟨k, hkf, hkl⟩ := h
      have hk0 : k ≠ 0 := by
        rintro rfl
        simp only [Nat.cast_zero, add_zero] at hkl
        rw [hy] at hkl
        exact Bool.false_ne_true hkl
      obtain ⟨k', rfl⟩ : ∃ k', k = k' + 1 := ⟨k - 1, by omega⟩
      have hstep : leapSearch (fuel + 1) y = leapSearch fuel (y + 1) := by
        simp [leapSearch, hy]
      have hkl' : is_leap_year (y + 1 + k') = true := by
        convert hkl using 2; push_cast; ring
      obtain ⟨j, hj1, hj2, hj3, hj4⟩ := ih (y + 1) ⟨k', by omega, hkl'⟩
      refine ⟨j + 1, ?_, ?_, ?_, ?_⟩
      · rw [hstep, hj1]; push_cast; ring
      · convert hj2 using 2; push_cast; ring
      · intro i hi
        cases i with
        | zero => simpa using hy
        | succ i' =>
          have := hj3 i' (by omega)
          convert this using 2; push_cast; ring
      · intro k hk hkl2
        cases k with
        | zero =>
          exfalso
          simp only [Nat.cast_zero, add_zero] at hkl2
          rw [hy] at hkl2
          exact Bool.false_ne_true hkl2
        | succ k'' =>
          have := hj4 k'' (by omega) (by convert hkl2 using 2; push_cast; ring)
          omega

/-- C10: the February-29 year-advance loop terminates for every starting
year: `leapSearch 8` (the fueled rendering of the `while` loop) stops at a
leap year reached after at most 7 increments, having skipped only non-leap
years, so building a reply's date is total. -/
theorem claim_C10_leap_search_terminates (y : Int) :
    ∃ k : Nat, k ≤ 7 ∧ leapSearch 8 y = y + k ∧ is_leap_year (y + k) = true ∧
      ∀ i : Nat, i < k → is_leap_year (y + i) = false := by
  obtain ⟨k, hk7, hkl⟩ := leap_exists_within7 y
  obtain ⟨j, h1, h2, h3, h4⟩ := leapSearch_spec 8 y ⟨k, by omega, hkl⟩
  exact ⟨j, by have := h4 k (by omega) hkl; omega, h1, h2, h3⟩

/-- C3: a reply stamped February 29 gets the smallest leap year at or after
the article's year (unchanged when that year is itself leap); any other
month/day keeps the article's year; and the year of every built reply
timestamp is exactly `replyYear` of the article's year. -/
theorem claim_C3_leap_day_year_inference (y : Int) (m d : Nat) :
    (m = 2 ∧ d = 29 →
      is_leap_year (replyYear y m d) = true ∧
      y ≤ replyYear y m d ∧
      (is_leap_year y = true → replyYear y m d = y) ∧
      (∀ z : Int, y ≤ z → z < replyYear y m d → is_leap_year z = false))
    ∧ (¬(m = 2 ∧ d = 29) → replyYear y m d = y)
    ∧ (∀ (t : DateTimeTW) (h mi : Nat) (r : DateTimeTW),
        make_reply_date (some t) m d h mi = some r → r.year = replyYear t.year m d) := by
  refine ⟨?_, ?_, ?_⟩
  · intro hmd
    have hry : replyYear y m d = leapSearch 8 y := by rw [replyYear, if_pos hmd]
    obtain ⟨k, hk7, hkl⟩ := leap_exists_within7 y
    obtain ⟨j, h1, h2, h3, _⟩ := leapSearch_spec 8 y ⟨k, by omega, hkl⟩
    rw [hry, h1]
    refine ⟨h2, by omega, ?_, ?_⟩
    · intro hy
      have hj0 : j = 0 := by
        by_contra hne
        have h0 := h3 0 (by omega)
        simp only [Nat.cast_zero, add_zero] at h0
        rw [hy] at h0
        exact Bool.noConfusion h0
      rw [hj0]; simp
    · intro z hz1 hz2
      have hi : ((z - y).toNat : Int) = z - y := by omega
      have := h3 (z - y).toNat (by omega)
      rw [hi] at this
      convert this using 2
      omega
  · intro hmd
    rw [replyYear, if_neg hmd]
  · intro t h mi r hr
    simp only [make_reply_date, Option.some_bind] at hr
    split at hr
    · cases hr; rfl
    · cases hr

/-- Witness for C3 at a concrete input: article year 2007, reply stamped
02/29 (resolved year 2008 is leap and not before 2007) and 03/29 (year kept). -/
theorem claim_C3_witness :
    is_leap_year (replyYear 2007 2 29) = true ∧
    (2007 : Int) ≤ replyYear 2007 2 29 ∧
    replyYear 2007 3 29 = 2007 :=
  ⟨((claim_C3_leap_day_year_inference 2007 2 29).1 ⟨rfl, rfl⟩).1,
   ((claim_C3_leap_day_year_inference 2007 2 29).1 ⟨rfl, rfl⟩).2.1,
   (claim_C3_leap_day_year_inference 2007 3 29).2.1 (by omega)⟩

/-- `parse_id` never returns a typed error: its failure mode is a panic. -/
theorem parse_id_no_err (d : Document) (e : ParseError) : parse_id d ≠ .err e := by
  simp only [parse_id]
  repeat' split
  all_goals exact fun h => PResult.noConfusion h

/-- The only typed error of `parse_title` is `FieldNotFound("title")`. -/
theorem parse_title_err_shape (d : Document) (e : ParseError)
    (h : parse_title d = .err e) : e = .fieldNotFound "title" := by
  simp only [parse_title] at h
  repeat' split at h
  all_goals simp_all

/-- The only typed error of `parse_author` is `FieldNotFound("author")`. -/
theorem parse_author_err_shape (d : Document) (e : ParseError)
    (h : parse_author d = .err e) : e = .fieldNotFound "author" := by
  simp only [parse_author] at h
  repeat' split at h
  all_goals simp_all

/-- The only typed error of `parse_board` is `FieldNotFound("board")`. -/
theorem parse_board_err_shape (d : Document) (e : ParseError)
    (h : parse_board d = .err e) : e = .fieldNotFound "board" := by
  simp only [parse_board] at h
  repeat' split at h
  all_goals simp_all

/-- The only typed error of `parse_content` is `InvalidFormat`. -/
theorem parse_content_err_shape (d : Document) (e : ParseError)
    (h : parse_content d = .err e) : e = .invalidFormat := by
  simp only [parse_content] at h
  repeat' split at h
  all_goals simp_all

/-- `parse_replies` never returns a typed error: single-reply errors are
dropped and panics propagate as panics. -/
theorem parse_replies_no_err (ns : List PushNode) (t : Option DateTimeTW) :
    ∀ e, parse_replies ns t ≠ .err e := by
  induction ns with
  | nil => intro e h; exact PResult.noConfusion h
  | cons n ns ih =>
    intro e h
    simp only [parse_replies] at h
    cases hr : parse_reply n t <;> rw [hr] at h
    · cases hrec : parse_replies ns t <;> rw [hrec] at h
      · exact PResult.noConfusion h
      · exact ih _ hrec
      · exact PResult.noConfusion h
    · exact ih _ h
    · exact PResult.noConfusion h

/-- No typed error of `parse_meta` is `DeletedArticle`. -/
theorem parse_meta_err_shape (d : Document) (e : ParseError)
    (h : parse_meta d = .err e) : e ≠ .deletedArticle := by
  unfold parse_meta at h
  cases hid : parse_id d <;> rw [hid] at h <;> simp only [pbind_ok, pbind_err, pbind_fault] at h
  · cases ht : parse_title d <;> rw [ht] at h <;>
      simp only [pbind_ok, pbind_err, pbind_fault] at h
    · cases ha : parse_author d <;> rw [ha] at h <;>
        simp only [pbind_ok, pbind_err, pbind_fault] at h
      · cases hb : parse_board d <;> rw [hb] at h <;>
          simp only [pbind_ok, pbind_err, pbind_fault] at h
        · cases hd : parse_date d <;> rw [hd] at h <;>
            simp only [softOpt, pbind_ok, pbind_err, pbind_fault] at h
          all_goals
            (try (cases hip : parse_ip d <;> rw [hip] at h <;>
              simp only [softOpt, pbind_ok, pbind_err, pbind_fault] at h))
          all_goals simp_all
        · injection h with h'
          subst h'
          rw [parse_board_err_shape d _ hb]
          exact fun hh => ParseError.noConfusion hh
        · exact PResult.noConfusion h
      · injection h with h'
        subst h'
        rw [parse_author_err_shape d _ ha]
        exact fun hh => ParseError.noConfusion hh
      · exact PResult.noConfusion h
    · injection h with h'
      subst h'
      rw [parse_title_err_shape d _ ht]
      exact fun hh => ParseError.noConfusion hh
    · exact PResult.noConfusion h
  · exact absurd hid (parse_id_no_err d _)
  · exact PResult.noConfusion h

/-- C4: a document whose `bbs-content` text contains `404 - Not Found.` is
classified `DeletedArticle` by `parse` whatever its other contents (so no
field extraction can influence or escape that outcome), and without the
marker `parse` never returns `DeletedArticle`. -/
theorem claim_C4_deleted_article_detection (d : Document) :
    (d.bbsContentTexts.any (fun t => strContainsSub t "404 - Not Found.") = true →
      parse d = .err .deletedArticle)
    ∧ (d.bbsContentTexts.any (fun t => strContainsSub t "404 - Not Found.") = false →
      parse d ≠ .err .deletedArticle) := by
  constructor
  · intro hm
    unfold parse is_article_exist
    rw [hm]
    simp
  · intro hm h
    have hex : is_article_exist d = true := by
      unfold is_article_exist; rw [hm]; rfl
    unfold parse at h
    rw [hex] at h
    simp only [Bool.not_true] at h
    rw [if_neg (fun hc => Bool.noConfusion hc)] at h
    cases hme : parse_meta d with
    | ok meta =>
      rw [hme] at h
      simp only [pbind_ok] at h
      cases hc : parse_content d with
      | ok content =>
        rw [hc] at h
        simp only [pbind_ok] at h
        cases hr : parse_replies d.pushNodes meta.date with
        | ok replies => rw [hr] at h; exact PResult.noConfusion h
        | err e2 => exact parse_replies_no_err _ _ _ hr
        | fault => rw [hr] at h; exact PResult.noConfusion h
      | err e2 =>
        rw [hc] at h
        simp only [pbind_err] at h
        injection h with h'
        rw [parse_content_err_shape d _ hc] at h'
        exact ParseError.noConfusion h'
      | fault => rw [hc] at h; exact PResult.noConfusion h
    | err e1 =>
      rw [hme] at h
      simp only [pbind_err] at h
      injection h with h'
      exact parse_meta_err_shape d _ hme h'
    | fault => rw [hme] at h; exact PResult.noConfusion h

/-- Witness for C4 at concrete inputs: a marked document is classified
deleted even though every other query result is empty or malformed, and an
unmarked document is not. -/
theorem claim_C4_witness :
    parse ⟨["xx 404 - Not Found. yy"], none, none, [], none, []⟩ =
      .err .deletedArticle ∧
    parse ⟨["irrelevant"], none, none, [], none, []⟩ ≠ .err .deletedArticle :=
  ⟨(claim_C4_deleted_article_detection _).1 (by decide),
   (claim_C4_deleted_article_detection _).2 (by decide)⟩

/-- C9: `parse_title` tries its three strategies in order — og:title meta,
labelled 標題 span, raw `標題:` marker — the first that locates a value wins
(each output passed through the category split), and `FieldNotFound("title")`
is returned exactly when all three locators fail. -/
theorem claim_C9_title_fallback_order (d : Document) :
    (∀ s, d.ogTitleMeta = some (some s) → parse_title d = .ok (splitCategory s))
    ∧ (∀ n s, d.ogTitleMeta = none →
        d.spans.find? (fun k => strTrim k.text == "標題") = some n →
        n.nextText = some s → parse_title d = .ok (splitCategory s))
    ∧ (∀ mc rest, d.ogTitleMeta = none →
        d.spans.find? (fun k => strTrim k.text == "標題") = none →
        d.mainContent = some mc →
        afterFirst mc "標題:" = some rest →
        rest.toList.contains '\n' = true →
        parse_title d = .ok (splitCategory (firstLine rest)))
    ∧ (∀ mc, d.ogTitleMeta = none →
        d.spans.find? (fun k => strTrim k.text == "標題") = none →
        d.mainContent = some mc →
        afterFirst mc "標題:" = none →
        parse_title d = .err (.fieldNotFound "title"))
    ∧ (∀ e, parse_title d = .err e →
        e = .fieldNotFound "title" ∧ d.ogTitleMeta = none ∧
        d.spans.find? (fun k => strTrim k.text == "標題") = none) := by
  refine ⟨?_, ?_, ?_, ?_, ?_⟩
  · intro s h1
    simp [parse_title, h1]
  · intro n s h1 h2 h3
    simp [parse_title, h1, h2, h3]
  · intro mc rest h1 h2 h3 h4 h5
    have h5m : '\n' ∈ rest.data := by simpa using h5
    simp [parse_title, h1, h2, h3, h4, h5m]
  · intro mc h1 h2 h3 h4
    simp [parse_title, h1, h2, h3, h4]
  · intro e h
    simp only [parse_title] at h
    repeat' split at h
    all_goals simp_all

/-- C9 witness document with both og:title markup and a raw marker. -/
def docC9both : Document :=
  ⟨[], none, some (some "[Cat] Meta title"), [], some "head 標題: raw\ny", []⟩

/-- C9 witness document with only the raw marker. -/
def docC9raw : Document :=
  ⟨[], none, none, [], some "x標題: raw title\nrest", []⟩

/-- C9 witness document with no title source at all. -/
def docC9none : Document :=
  ⟨[], none, none, [], some "no marker here\n", []⟩

/-- Witness for C9 at concrete documents: markup wins over a raw marker,
the raw marker alone still yields the title, and with no source at all the
result is `FieldNotFound("title")`. -/
theorem claim_C9_witness :
    parse_title docC9both = .ok (some "Cat", "Meta title") ∧
    parse_title docC9raw = .ok (none, "raw title") ∧
    parse_title docC9none = .err (.fieldNotFound "title") :=
  ⟨((claim_C9_title_fallback_order docC9both).1 "[Cat] Meta title" rfl).trans
      (by decide),
   ((claim_C9_title_fallback_order docC9raw).2.2.1 "x標題: raw title\nrest"
      " raw title\nrest" rfl rfl rfl (by decide) (by decide)).trans (by decide),
   (claim_C9_title_fallback_order docC9none).2.2.2.1 "no marker here\n"
      rfl rfl rfl (by decide)⟩

/-- The id described by the claim/spec wording (second definition following
the spec's words, for comparison with `parse_id`): the last path segment of
the canonical href with the **trailing** `.html` suffix stripped. -/
def specTrailingStripId (url : String) : Option String :=
  let seg := (listSplitOn ['/'] url.toList).getLastD []
  if (".html".toList).isSuffixOf seg then
    some (String.mk (seg.take (seg.length - 5)))
  else none

/-- C7 counterexample document: the canonical href ends in the path segment
`a.html.html` (token `a.html`). -/
def docC7cex : Document :=
  ⟨[], some "https://www.ptt.cc/bbs/T/a.html.html", none, [], none, []⟩

/-- C7 counterexample: on segment `a.html.html` the code truncates at the
**first** `.html`, extracting `"a"`, while the claim's trailing-suffix strip
demands `"a.html"`. -/
theorem claim_C7_counterexample :
    parse_id docC7cex = .ok "a" ∧
    specTrailingStripId "https://www.ptt.cc/bbs/T/a.html.html" = some "a.html" ∧
    ("a" : String) ≠ "a.html" := by decide

/-- C7 amended: the extracted id is the part of the last path segment
strictly before the **first** occurrence of `.html` (and when the segment
has no `.html` at all, `parse_id` panics on the `unwrap`). -/
theorem claim_C7_id_first_html_strip (d : Document) (url : String)
    (h1 : d.canonicalHref = some url) :
    (∀ pre,
      beforeFirst (String.mk ((listSplitOn ['/'] url.toList).getLastD [])) ".html" =
        some pre →
      parse_id d = .ok pre)
    ∧ (beforeFirst (String.mk ((listSplitOn ['/'] url.toList).getLastD [])) ".html" =
        none →
      parse_id d = .fault) := by
  constructor
  · intro pre h2
    simp only [parse_id, h1]
    rw [h2]
  · intro h2
    simp only [parse_id, h1]
    rw [h2]

/-- C7 witness document: the canonical URL of the claim's example. -/
def docC7soft : Document :=
  ⟨[], some "https://www.ptt.cc/bbs/Soft_Job/M.1181801925.A.86E.html", none, [],
   none, []⟩

/-- Witness for C7 at the claim's example URL. -/
theorem claim_C7_witness : parse_id docC7soft = .ok "M.1181801925.A.86E" :=
  (claim_C7_id_first_html_strip docC7soft
    "https://www.ptt.cc/bbs/Soft_Job/M.1181801925.A.86E.html" rfl).1
    "M.1181801925.A.86E" (by decide)

/-- C8 counterexample document: no canonical link, everything else present
and well-formed, no deletion marker. -/
def docC8cex : Document :=
  ⟨[], none, some (some "t"), [], some "h\nb\n※ s", []⟩

/-- C8 counterexample: with the canonical link absent, `parse` panics
(uncaught `unwrap` fault); it does not return `FieldNotFound`. -/
theorem claim_C8_counterexample :
    parse docC8cex = .fault ∧
    parse docC8cex ≠ .err (.fieldNotFound "id") := by decide

/-- C8 amended: a document without deletion marker whose canonical link is
absent makes `parse_id`, and with it the whole `parse`, panic — id
extraction has no fallback, but the failure is an uncaught fault, not a
typed `FieldNotFound`. -/
theorem claim_C8_missing_canonical_panics (d : Document)
    (hm : d.bbsContentTexts.any (fun t => strContainsSub t "404 - Not Found.") = false)
    (hc : d.canonicalHref = none) :
    parse_id d = .fault ∧ parse d = .fault := by
  have hid : parse_id d = .fault := by simp [parse_id, hc]
  refine ⟨hid, ?_⟩
  have hex : is_article_exist d = true := by
    unfold is_article_exist; rw [hm]; rfl
  unfold parse
  rw [hex]
  simp only [Bool.not_true]
  rw [if_neg (fun hcc => Bool.noConfusion hcc)]
  unfold parse_meta
  rw [hid]
  simp

/-- Witness for C8, applying the amended theorem to the counterexample
document. -/
theorem claim_C8_witness : parse_id docC8cex = .fault ∧ parse docC8cex = .fault :=
  claim_C8_missing_canonical_panics docC8cex (by decide) rfl

/-- Whether a parsing outcome is a success. -/
def isOkResult {α : Type} : PResult α → Bool
  | .ok _ => true
  | _ => false

/-- C5 counterexample: a well-formed reply node. -/
def pushGoodC5 : PushNode := ⟨"x", some "推", some "u1", some ": first", some "05/05 12:00"⟩

/-- C5 counterexample: a reply node whose type tag `X` is none of 推/→/噓. -/
def pushBadC5 : PushNode := ⟨"y", some "X", some "u2", some ": second", some "05/06 12:00"⟩

/-- C5 counterexample document: a fully well-formed article carrying one
good reply and one reply with the unrecognized tag. -/
def docC5cex : Document :=
  ⟨[], some "https://www.ptt.cc/bbs/T/M.1.A.2.html", some (some "[T] t"),
   [⟨["article-meta-value"], "auth", none⟩, ⟨["article-meta-value"], "Gossiping", none⟩],
   some "head\nbody\n※ sig", [pushGoodC5, pushBadC5]⟩

/-- C5 counterexample: the tag `X` is outside the 3-glyph vocabulary, the
affected reply's parse is a panic (not a drop), and the whole article parse
aborts with that panic instead of returning the rest of the article. -/
theorem claim_C5_counterexample :
    ReplyType.fromString (strTrim "X") = none ∧
    parse_reply pushBadC5 none = .fault ∧
    parse docC5cex = .fault ∧
    isOkResult (parse docC5cex) = false := by decide

/-- C5 amended: a reply node whose type tag is not one of the three glyphs
makes `parse_reply` panic (`parse::<ReplyType>().unwrap()`), and any reply
list containing such a node makes `parse_replies` — and with it the whole
article parse — panic; the reply is not dropped and the rest of the article
is not returned. -/
theorem claim_C5_unknown_tag_panics (n : PushNode) (t : Option DateTimeTW) (s : String)
    (hbig : n.text ≠ bigFileMsg)
    (htag : n.pushTag = some s)
    (hunk : ReplyType.fromString (strTrim s) = none) :
    parse_reply n t = .fault ∧
    ∀ ns : List PushNode, n ∈ ns → parse_replies ns t = .fault := by
  have hne : (n.text == bigFileMsg) = false := beq_eq_false_iff_ne.mpr hbig
  have hpr : parse_reply n t = .fault := by
    unfold parse_reply
    rw [hne]
    simp [htag, hunk]
  refine ⟨hpr, ?_⟩
  intro ns
  induction ns with
  | nil => intro h; cases h
  | cons m ms ih =>
    intro hmem
    simp only [parse_replies]
    rcases List.mem_cons.mp hmem with heq | hmem2
    · subst heq
      rw [hpr]
    · have hms := ih hmem2
      cases hr : parse_reply m t
      · rw [hms]
      · exact hms
      · rfl

/-- Witness for C5 at the counterexample inputs. -/
theorem claim_C5_witness :
    parse_reply pushBadC5 none = .fault ∧
    parse_replies [pushGoodC5, pushBadC5] none = .fault :=
  ⟨(claim_C5_unknown_tag_panics pushBadC5 none "X" (by decide) rfl (by decide)).1,
   (claim_C5_unknown_tag_panics pushBadC5 none "X" (by decide) rfl (by decide)).2
     [pushGoodC5, pushBadC5] (by decide)⟩

/-- C6 counterexample: a reply whose origin+time token matches the regex
(capturing IPv4 text `999.0.0.1` and invalid day 32). -/
def pushBadIpC6 : PushNode :=
  ⟨"x", some "推", some "u", some ": hello", some "999.0.0.1 03/32"⟩

/-- C6 counterexample: the token matches the regex and the day is invalid,
yet the reply is not kept with an absent date — the captured IPv4 text is
not a valid address, so `parse::<Ipv4Addr>().unwrap()` panics and the
article's reply collection aborts. -/
theorem claim_C6_counterexample :
    replyMatch (trimChars "999.0.0.1 03/32".toList) =
      some (some "999.0.0.1", ⟨3, 32, 0, 0⟩) ∧
    validYmdHms (replyYear 2006 3 32) 3 32 0 0 0 = false ∧
    parse_reply pushBadIpC6 (some ⟨2006, 4, 1, 18, 9, 31⟩) = .fault ∧
    parse_replies [pushBadIpC6] (some ⟨2006, 4, 1, 18, 9, 31⟩) = .fault := by
  decide

/-- C6 amended: a reply whose origin+time token matched the regex and whose
captured IPv4 (if any) parses as a valid address is kept with all its fields
even when the date cannot be built (invalid calendar date, or no article
timestamp): the date is absent, never defaulted, and the reply is never
dropped.  (A captured but invalid IPv4 token instead panics, see the
counterexample.) -/
theorem claim_C6_invalid_date_kept (n : PushNode) (t : Option DateTimeTW)
    (tag uid rawC ipdt : String) (rt : ReplyType) (ipTok : Option String)
    (ipOpt : Option Ipv4) (md : MDTime)
    (hbig : n.text ≠ bigFileMsg)
    (htag : n.pushTag = some tag)
    (hrt : ReplyType.fromString (strTrim tag) = some rt)
    (huid : n.pushUserid = some uid)
    (hcon : n.pushContent = some rawC)
    (hipdt : n.pushIpdatetime = some ipdt)
    (hmatch : replyMatch (trimChars ipdt.toList) = some (ipTok, md))
    (hip : capIp ipTok = .ok ipOpt)
    (hdate : make_reply_date t md.month md.day md.hour md.minute = none) :
    parse_reply n t = .ok ⟨rt, uid, ipOpt, none, strTrim (dropColonSpace rawC)⟩ := by
  have hne : (n.text == bigFileMsg) = false := beq_eq_false_iff_ne.mpr hbig
  simp only [String.toList] at hmatch
  simp [parse_reply, hne, htag, hrt, huid, hcon, hipdt, hmatch, hip, hdate]

/-- C6 witness node: valid IPv4, day 32. -/
def pushDay32C6 : PushNode :=
  ⟨"x", some "噓", some "user9", some ": msg", some "118.166.60.36 03/32"⟩

/-- Witness for C6: a reply stamped `03/32` with a valid origin address is
kept with type, author, address and text intact and an absent date. -/
theorem claim_C6_witness :
    parse_reply pushDay32C6 (some ⟨2006, 4, 1, 18, 9, 31⟩) =
      .ok ⟨.boo, "user9", some ⟨118, 166, 60, 36⟩, none, "msg"⟩ :=
  (claim_C6_invalid_date_kept pushDay32C6 (some ⟨2006, 4, 1, 18, 9, 31⟩)
    "噓" "user9" ": msg" "118.166.60.36 03/32" .boo (some "118.166.60.36")
    (some ⟨118, 166, 60, 36⟩) ⟨3, 32, 0, 0⟩ (by decide) rfl (by decide) rfl rfl rfl
    (by decide) (by decide) (by decide)).trans (by decide)

@[simp]
theorem oksOf_nil {α : Type} : oksOf ([] : List (Except CrawlError α)) = [] := rfl

@[simp]
theorem oksOf_cons_ok {α : Type} (a : α) (l : List (Except CrawlError α)) :
    oksOf (.ok a :: l) = a :: oksOf l := rfl

@[simp]
theorem oksOf_cons_error {α : Type} (e : CrawlError) (l : List (Except CrawlError α)) :
    oksOf (.error e :: l) = oksOf l := rfl

@[simp]
theorem errsOf_nil {α : Type} : errsOf ([] : List (Except CrawlError α)) = [] := rfl

@[simp]
theorem errsOf_cons_ok {α : Type} (a : α) (l : List (Except CrawlError α)) :
    errsOf (.ok a :: l) = errsOf l := rfl

@[simp]
theorem errsOf_cons_error {α : Type} (e : CrawlError) (l : List (Except CrawlError α)) :
    errsOf (.error e :: l) = e :: errsOf l := rfl

/-- The page loop of `crawl_page_urls`: the accumulator collects the URL
lists of the successful pages in order, and the error slot ends at the last
failure (or its initial value when no page failed). -/
theorem page_fold_spec (fetch : Nat → Except CrawlError (List String))
    (ps : List Nat) (acc : List String) (e : CrawlError) :
    ps.foldl (fun acc p =>
      match fetch p with
      | .ok urls => (acc.1 ++ urls, acc.2)
      | .error er => (acc.1, er)) (acc, e) =
    (acc ++ (oksOf (ps.map fetch)).flatten, (errsOf (ps.map fetch)).getLastD e) := by
  induction ps generalizing acc e with
  | nil => simp [oksOf, errsOf]
  | cons p ps ih =>
    simp only [List.foldl_cons, List.map_cons]
    cases hf : fetch p with
    | error er =>
      simp only [hf]
      rw [ih]
      simp only [oksOf_cons_error, errsOf_cons_error, List.getLastD_cons]
    | ok urls =>
      simp only [hf]
      rw [ih]
      simp only [oksOf_cons_ok, errsOf_cons_ok, List.flatten_cons, List.append_assoc]

/-- The article loop of `crawl_page_articles`: the accumulator collects the
successfully crawled articles in URL order, and the error slot ends at the
last failure (or its initial value when none failed). -/
theorem article_fold_spec (fetchA : String → Except CrawlError Article)
    (urls : List String) (acc : List Article) (e : CrawlError) :
    urls.foldl (fun acc url =>
      match fetchA url with
      | .ok a => (acc.1 ++ [a], acc.2)
      | .error er => (acc.1, er)) (acc, e) =
    (acc ++ oksOf (urls.map fetchA), (errsOf (urls.map fetchA)).getLastD e) := by
  induction urls generalizing acc e with
  | nil => simp [oksOf, errsOf]
  | cons u us ih =>
    simp only [List.foldl_cons, List.map_cons]
    cases hf : fetchA u with
    | error er =>
      simp only [hf]
      rw [ih]
      simp only [oksOf_cons_error, errsOf_cons_error, List.getLastD_cons]
    | ok a =>
      simp only [hf]
      rw [ih]
      simp only [oksOf_cons_ok, errsOf_cons_ok, List.append_assoc, List.cons_append,
        List.nil_append]

/-- C2: over any inclusive page range, `crawl_page_urls` returns the
concatenation, in ascending page order, of the URL lists of the pages that
succeeded — failing pages contribute nothing — and errs exactly when that
concatenation is empty, with the last failure encountered (`InvalidResponse`
when no page was even fetched or all succeeded empty); `crawl_page_articles`
likewise returns the articles of the URLs that succeeded, in order, errs
exactly when zero articles were recovered, and then carries the last failure
encountered (the page-level one when the URL stage already failed, else the
article-level one). -/
theorem claim_C2_crawl_aggregation
    (fetchPage : Nat → Except CrawlError (List String))
    (fetchArticle : String → Except CrawlError Article) (lo hi : Nat) :
    (crawl_page_urls fetchPage lo hi =
      (if ((oksOf ((pageList lo hi).map fetchPage)).flatten).isEmpty then
        .error (lastErrD ((pageList lo hi).map fetchPage))
      else .ok ((oksOf ((pageList lo hi).map fetchPage)).flatten)))
    ∧ (crawl_page_articles fetchPage fetchArticle lo hi =
      (if ((oksOf ((pageList lo hi).map fetchPage)).flatten).isEmpty then
        .error (lastErrD ((pageList lo hi).map fetchPage))
      else if (oksOf (((oksOf ((pageList lo hi).map fetchPage)).flatten).map
          fetchArticle)).isEmpty then
        .error (lastErrD (((oksOf ((pageList lo hi).map fetchPage)).flatten).map
          fetchArticle))
      else .ok (oksOf (((oksOf ((pageList lo hi).map fetchPage)).flatten).map
        fetchArticle)))) := by
  have hfold := page_fold_spec fetchPage (pageList lo hi) [] CrawlError.invalidResponse
  constructor
  · simp only [crawl_page_urls]
    rw [hfold]
    simp [lastErrD]
  · simp only [crawl_page_articles, crawl_page_urls]
    rw [hfold]
    simp only [List.nil_append]
    by_cases hemp : ((oksOf ((pageList lo hi).map fetchPage)).flatten).isEmpty
    · simp [hemp, lastErrD]
    · simp only [hemp, if_false, Bool.false_eq_true]
      rw [article_fold_spec fetchArticle _ [] CrawlError.invalidResponse]
      simp [lastErrD, hemp]

/-- `parse_replies` on `n` copies of a node whose parse succeeds yields `n`
copies of the parsed reply. -/
theorem parse_replies_replicate (n : Nat) (node : PushNode) (t : Option DateTimeTW)
    (r : Reply) (h : parse_reply node t = .ok r) :
    parse_replies (List.replicate n node) t = .ok (List.replicate n r) := by
  induction n with
  | zero => rfl
  | succ n ih =>
    rw [List.replicate_succ]
    simp only [parse_replies, h, ih]
    rw [List.replicate_succ]

/-- The reply tally of `n` copies of one reply. -/
theorem replyTally_replicate (n : Nat) (r : Reply) (t : ReplyType) :
    replyTally (List.replicate n r) t = if r.reply_type == t then n else 0 := by
  induction n with
  | zero => simp [replyTally]
  | succ n ih =>
    rw [List.replicate_succ]
    unfold replyTally at ih ⊢
    rw [List.filter_cons]
    cases hp : r.reply_type == t with
    | true =>
      simp only [hp, if_true, List.length_cons]
      simp only [hp, if_true] at ih
      omega
    | false =>
      simp only [hp, Bool.false_eq_true, if_false]
      simp only [hp, Bool.false_eq_true, if_false] at ih
      exact ih

/-- C1 document: a fully well-formed article whose reply section is 32768
identical push-tagged replies. -/
def pushC1 : PushNode := ⟨"x", some "推", some "u", some ": hi", some "05/05 12:00"⟩

/-- The reply `pushC1` parses to (the article date is unresolved, so the
reply date is absent). -/
def replyC1 : Reply := ⟨.push, "u", none, none, "hi"⟩

/-- The meta record `docC1` parses to. -/
def metaC1 : Meta :=
  ⟨.known "Gossiping", "M.1.A.2", "T", "t", "auth", none, none, none⟩

/-- C1 document with 32768 push replies. -/
def docC1 : Document :=
  ⟨[], some "https://www.ptt.cc/bbs/T/M.1.A.2.html", some (some "[T] t"),
   [⟨["article-meta-value"], "auth", none⟩, ⟨["article-meta-value"], "Gossiping", none⟩],
   some "head\nbody\n※ sig", List.replicate 32768 pushC1⟩

/-- `parse` on a document whose components succeed: the assembled article
with the `as i16`-cast tallies. -/
theorem parse_assembles (d : Document) (meta : Meta) (content : String)
    (replies : List Reply)
    (hex : is_article_exist d = true)
    (hm : parse_meta d = .ok meta)
    (hc : parse_content d = .ok content)
    (hr : parse_replies d.pushNodes meta.date = .ok replies) :
    parse d = .ok ⟨meta, content,
      ⟨toI16 (replyTally replies .push), toI16 (replyTally replies .neutral),
       toI16 (replyTally replies .boo)⟩, replies⟩ := by
  unfold parse
  rw [hex]
  simp only [Bool.not_true]
  rw [if_neg (fun hcc => Bool.noConfusion hcc)]
  rw [hm]
  simp only [pbind_ok]
  rw [hc]
  simp only [pbind_ok]
  rw [hr]
  simp only [pbind_ok]

/-- C1: the claim is right and the code is wrong.  `parse` computes the
tally with `count() as i16` (for fields the struct declares as `u16`): on an
article with 32768 push replies the stored `reply_count.push` is `-32768`,
while the number of replies of type `Push` in `replies` is `32768` — the
derived-tally invariant the spec states (and the `u16` field type promises)
is broken by the cast. -/
theorem claim_C1_reply_count_cast_evaluation :
    parse docC1 =
      .ok ⟨metaC1, "body", ⟨-32768, 0, 0⟩, List.replicate 32768 replyC1⟩ ∧
    replyTally (List.replicate 32768 replyC1) .push = 32768 ∧
    (-32768 : Int) ≠ (32768 : Int) := by
  have hpr : parse_reply pushC1 none = .ok replyC1 := by decide
  have hmeta : parse_meta docC1 = .ok metaC1 := by decide
  have hcont : parse_content docC1 = .ok "body" := by decide
  have hreps : parse_replies docC1.pushNodes metaC1.date =
      .ok (List.replicate 32768 replyC1) :=
    parse_replies_replicate 32768 pushC1 none replyC1 hpr
  have htalp : replyTally (List.replicate 32768 replyC1) .push = 32768 := by
    rw [replyTally_replicate]; decide
  have htaln : replyTally (List.replicate 32768 replyC1) .neutral = 0 := by
    rw [replyTally_replicate]; decide
  have htalb : replyTally (List.replicate 32768 replyC1) .boo = 0 := by
    rw [replyTally_replicate]; decide
  have hex : is_article_exist docC1 = true := by decide
  have hmain := parse_assembles docC1 metaC1 "body" (List.replicate 32768 replyC1)
    hex hmeta hcont hreps
  rw [htalp, htaln, htalb] at hmain
  have h16 : toI16 32768 = -32768 := by decide
  have h0 : toI16 0 = 0 := by decide
  rw [h16, h0] at hmain
  exact ⟨hmain, htalp, by decide⟩
